import Mathlib

/-!
Verification of the SpeedVision dashboard hook (useSpeedDetection) and the
dashboard components that consume it.  The definitions below are a shallow
embedding of the TypeScript source: the random values drawn by Math.random
and the clock values returned by Date.now are passed in explicitly as inputs,
JS numbers that only ever hold integers are modelled as Nat/Int, and the
remaining numeric draws are modelled as rationals.
-/

namespace SpeedVision

/-!
Decimal rendering of natural numbers.  This models the template-string
interpolation of a JS number (for example the string given by
v_[Date.now()]_[suffix]), which renders the number in decimal.  The fuel
argument keeps the recursion structural so that the kernel can evaluate it.
-/

def natCharsAux : ℕ → ℕ → List Char
  | 0, _ => []
  | fuel + 1, n => if n = 0 then [] else natCharsAux fuel (n / 10) ++ [Nat.digitChar (n % 10)]

/-- Decimal digit characters of a natural number, most significant first. -/
def natChars (n : ℕ) : List Char := if n = 0 then ['0'] else natCharsAux n n

/-- Decimal rendering of a natural number as a string. -/
def natStr (n : ℕ) : String := ⟨natChars n⟩

/-- Value of a list of decimal digit characters, used to show that decimal
rendering is injective. -/
def charsVal (l : List Char) : ℕ := l.foldl (fun acc c => 10 * acc + (c.toNat - 48)) 0

theorem natCharsAux_zero (fuel : ℕ) : natCharsAux fuel 0 = [] := by
  cases fuel <;> rfl

theorem charsVal_append_singleton (l : List Char) (c : Char) :
    charsVal (l ++ [c]) = 10 * charsVal l + (c.toNat - 48) := by
  simp [charsVal, List.foldl_append]

theorem digitChar_toNat : ∀ d < 10, (Nat.digitChar d).toNat = 48 + d := by decide

theorem digitChar_ne_underscore : ∀ d < 10, Nat.digitChar d ≠ '_' := by decide

theorem charsVal_natCharsAux : ∀ fuel n, n ≤ fuel → charsVal (natCharsAux fuel n) = n := by
  intro fuel
  induction fuel with
  | zero =>
    intro n hn
    interval_cases n
    simp [natCharsAux, charsVal]
  | succ fuel ih =>
    intro n hn
    by_cases h : n = 0
    · subst h
      simp [natCharsAux_zero, charsVal]
    · rw [natCharsAux, if_neg h, charsVal_append_singleton,
        ih (n / 10) (Nat.le_of_lt_succ (Nat.lt_of_lt_of_le (Nat.div_lt_self (Nat.pos_of_ne_zero h) (by norm_num)) hn)),
        digitChar_toNat (n % 10) (Nat.mod_lt _ (by norm_num))]
      omega

theorem charsVal_natChars (n : ℕ) : charsVal (natChars n) = n := by
  by_cases h : n = 0
  · subst h; decide
  · rw [natChars, if_neg h]
    exact charsVal_natCharsAux n n le_rfl

theorem natChars_inj {m n : ℕ} (h : natChars m = natChars n) : m = n := by
  rw [← charsVal_natChars m, h, charsVal_natChars]

theorem natCharsAux_mem_digit :
    ∀ fuel n c, c ∈ natCharsAux fuel n → ∃ d, d < 10 ∧ c = Nat.digitChar d := by
  intro fuel
  induction fuel with
  | zero => intro n c hc; simp [natCharsAux] at hc
  | succ fuel ih =>
    intro n c hc
    rw [natCharsAux] at hc
    by_cases h : n = 0
    · rw [if_pos h] at hc; simp at hc
    · rw [if_neg h] at hc
      rcases List.mem_append.1 hc with h1 | h1
      · exact ih _ _ h1
      · refine ⟨n % 10, Nat.mod_lt _ (by norm_num), ?_⟩
        simpa using h1

theorem natChars_mem_digit {n : ℕ} {c : Char} (hc : c ∈ natChars n) :
    ∃ d, d < 10 ∧ c = Nat.digitChar d := by
  by_cases h : n = 0
  · subst h
    simp [natChars] at hc
    exact ⟨0, by norm_num, by rw [hc]; rfl⟩
  · rw [natChars, if_neg h] at hc
    exact natCharsAux_mem_digit n n c hc

theorem underscore_not_mem_natChars (n : ℕ) : '_' ∉ natChars n := by
  intro h
  obtain ⟨d, hd, hc⟩ := natChars_mem_digit h
  exact digitChar_ne_underscore d hd hc.symm

/-- Cancellation of a separator that occurs in neither prefix: if a character
is absent from both prefixes, splitting at its first occurrence is unique. -/
theorem append_cons_inj {x : Char} :
    ∀ (A B s₁ s₂ : List Char), x ∉ A → x ∉ B → A ++ x :: s₁ = B ++ x :: s₂ → A = B := by
  intro A
  induction A with
  | nil =>
    intro B s₁ s₂ _ hB h
    cases B with
    | nil => rfl
    | cons b B =>
      simp only [List.nil_append, List.cons_append, List.cons.injEq] at h
      exact absurd (h.1 ▸ List.mem_cons_self b B) hB
  | cons a A ih =>
    intro B s₁ s₂ hA hB h
    cases B with
    | nil =>
      simp only [List.cons_append, List.nil_append, List.cons.injEq] at h
      exact absurd (h.1 ▸ List.mem_cons_self a A) hA
    | cons b B =>
      simp only [List.cons_append, List.cons.injEq] at h
      rw [h.1, ih B s₁ s₂ (fun hx => hA (List.mem_cons_of_mem a hx))
        (fun hx => hB (List.mem_cons_of_mem b hx)) h.2]

/-!
Data model, from src/types/detection.ts.  JS numbers that only ever hold
integer values (speeds, limits, fps, timestamps in milliseconds) are
modelled as Nat/Int; the remaining numeric fields are rationals.
-/

inductive VehicleType
  | car | truck | motorcycle | bus
deriving DecidableEq

/-- String form of a vehicle type, as stored in the TS union type. -/
def VehicleType.label : VehicleType → String
  | .car => "car"
  | .truck => "truck"
  | .motorcycle => "motorcycle"
  | .bus => "bus"

/-- Constant vehicleTypes array from part_003 line 5. -/
def vehicleTypes : List VehicleType := [.car, .truck, .motorcycle, .bus]

structure BBox where
  x : ℚ
  y : ℚ
  width : ℚ
  height : ℚ
deriving DecidableEq

structure DetectedVehicle where
  id : String
  type : VehicleType
  speed : ℕ
  isOverspeed : Bool
  confidence : ℚ
  bbox : BBox
  timestamp : ℕ
deriving DecidableEq

structure SpeedLog where
  id : String
  vehicleId : String
  vehicleType : VehicleType
  speed : ℕ
  speedLimit : ℤ
  isOverspeed : Bool
  timestamp : ℕ
  snapshotUrl : Option String
deriving DecidableEq

structure SystemStats where
  totalVehicles : ℕ
  overspeedCount : ℕ
  averageSpeed : ℕ
  maxSpeedToday : ℕ
  detectionRate : ℚ
  uptime : String

structure CameraConfig where
  id : String
  name : String
  location : String
  speedLimit : ℤ
  isActive : Bool
  resolution : String
  fps : ℤ
deriving DecidableEq

structure LocationData where
  city : String
  region : String
  country : String
  latitude : ℚ
  longitude : ℚ
  public_ip : String
  is_auto_detected : Bool
  formatted : String

inductive ConnectionStatus
  | connected | connecting | disconnected | error
deriving DecidableEq

/-!
Random vehicle generation, from part_003 lines 7-25.  Every Math.random()
call and the Date.now() call made by generateRandomVehicle are inputs,
collected in Draws.  The call Math.random().toString(36).substr(2, 9) is an
opaque random suffix and is passed in as the string it produces.
-/

structure Draws where
  speedRand : ℚ
  typeRand : ℚ
  idSuffix : String
  confRand : ℚ
  bxRand : ℚ
  byRand : ℚ
  bwRand : ℚ
  bhRand : ℚ
  now : ℕ

/-- Template string v_[Date.now()]_[suffix] from part_003 line 12, with the
millisecond clock rendered in decimal. -/
def vehicleId (now : ℕ) (suffix : String) : String :=
  "v_" ++ natStr now ++ "_" ++ suffix

/-- generateRandomVehicle from part_003 lines 7-25.  Out-of-range array
access cannot occur for draws in [0,1); getD only supplies the JS
out-of-bounds default. -/
def generateRandomVehicle (speedLimit : ℤ) (d : Draws) : DetectedVehicle :=
  let speed : ℕ := (⌊d.speedRand * 80⌋).toNat + 40
  { id := vehicleId d.now d.idSuffix
    type := vehicleTypes.getD (⌊d.typeRand * 4⌋).toNat VehicleType.car
    speed := speed
    isOverspeed := decide ((speed : ℤ) > speedLimit)
    confidence := 85 / 100 + d.confRand * (14 / 100)
    bbox := { x := 20 + d.bxRand * 50, y := 30 + d.byRand * 30,
              width := 15 + d.bwRand * 10, height := 20 + d.bhRand * 10 }
    timestamp := d.now }

/-!
Hook state and operations, from useSpeedDetection in part_003 lines 69-229.
Each useState cell is a field of HookState; the effect callbacks and the
returned callbacks become functions on HookState.
-/

structure HookState where
  connectionStatus : ConnectionStatus
  isPlaying : Bool
  vehicles : List DetectedVehicle
  logs : List SpeedLog
  locationData : Option LocationData
  stats : SystemStats
  config : CameraConfig

/-- Initial stats, part_003 lines 76-83. -/
def initialStats : SystemStats :=
  { totalVehicles := 0, overspeedCount := 0, averageSpeed := 0, maxSpeedToday := 0,
    detectionRate := 985 / 10, uptime := "24h 15m" }

/-- Initial config, part_003 lines 84-92. -/
def initialConfig : CameraConfig :=
  { id := "cam_001", name := "Camera 1", location := "Detecting location...",
    speedLimit := 80, isActive := true, resolution := "1920x1080", fps := 30 }

/-- Initial hook state, part_003 lines 70-92. -/
def initialState : HookState :=
  { connectionStatus := .connecting, isPlaying := true, vehicles := [], logs := [],
    locationData := none, stats := initialStats, config := initialConfig }

/-- Log entry built in part_003 lines 136-145 for a freshly generated vehicle. -/
def mkLog (v : DetectedVehicle) (speedLimit : ℤ) (now : ℕ) : SpeedLog :=
  { id := "log_" ++ natStr now
    vehicleId := v.id
    vehicleType := v.type
    speed := v.speed
    speedLimit := speedLimit
    isOverspeed := v.isOverspeed
    timestamp := v.timestamp
    snapshotUrl := if v.isOverspeed then some ("/snapshots/" ++ v.id ++ ".jpg") else none }

/-- Math.round (a / b) for natural a and positive b: round half up. -/
def roundDiv (a b : ℕ) : ℕ := (2 * a + b) / (2 * b)

/-- Stats update from part_003 lines 150-156; every right-hand side reads the
previous stats value, matching the functional setState update. -/
def updateStats (s : SystemStats) (v : DetectedVehicle) : SystemStats :=
  { s with
    totalVehicles := s.totalVehicles + 1
    overspeedCount := s.overspeedCount + (if v.isOverspeed then 1 else 0)
    averageSpeed := roundDiv (s.averageSpeed * s.totalVehicles + v.speed) (s.totalVehicles + 1)
    maxSpeedToday := max s.maxSpeedToday v.speed }

/-- JS slice(-5): the last n elements of a list. -/
def takeLast (n : ℕ) (l : List α) : List α := l.drop (l.length - n)

/-- Inputs consumed by one firing of the detection interval: the gate draw
compared against 0.3 in part_003 line 128, and the draws consumed by
generateRandomVehicle. -/
structure TickInput where
  gate : ℚ
  draws : Draws

/-- One firing of the simulated-detection interval, part_003 lines 123-158.
The effect is only installed while isPlaying and connected (line 124);
otherwise a firing leaves the state unchanged.  The vehicle list keeps only
vehicles younger than 3000 ms plus the new one, capped at the last 5; the
log is prepended and capped at 50; the stats are folded with the new
vehicle. -/
def tick (st : HookState) (i : TickInput) : HookState :=
  if st.isPlaying = true ∧ st.connectionStatus = ConnectionStatus.connected then
    if i.gate > 3 / 10 then
      let v := generateRandomVehicle st.config.speedLimit i.draws
      let kept := st.vehicles.filter (fun w => i.draws.now - w.timestamp < 3000)
      let log := mkLog v st.config.speedLimit i.draws.now
      { st with
        vehicles := takeLast 5 (kept ++ [v])
        logs := (log :: st.logs).take 50
        stats := updateStats st.stats v }
    else st
  else st

/-- updateConfig from part_003 lines 189-195: the new config is stored
unconditionally; if the location was edited away from the detected one, the
auto-detected flag is cleared. -/
def updateConfig (st : HookState) (newConfig : CameraConfig) : HookState :=
  { st with
    config := newConfig
    locationData :=
      match st.locationData with
      | some l => if newConfig.location ≠ l.formatted then some { l with is_auto_detected := false } else some l
      | none => none }

/-- getCurrentSpeed from part_003 lines 209-212: 0 on an empty vehicle list,
otherwise the speed of the vehicle at index length - 1. -/
def getCurrentSpeed (st : HookState) : ℕ :=
  if h : st.vehicles = [] then 0 else (st.vehicles.getLast h).speed

/-- Overspeed comparison from SpeedGauge.tsx line 11. -/
def SpeedGauge.isOverspeed (currentSpeed speedLimit : ℤ) : Bool :=
  decide (currentSpeed > speedLimit)

/-!
Events driving the hook: interval firings, the play toggle (line 163-165),
the simulated connection timeout (lines 115-120), config saves, and the
resolution of the location fetch (lines 95-112) or of a manual refresh
(lines 197-207).
-/

inductive Event
  | tick (i : TickInput)
  | togglePlay
  | connect
  | configUpdate (c : CameraConfig)
  | locationResolved (loc : LocationData)
  | locationRefreshed (loc : LocationData)

def step (st : HookState) : Event → HookState
  | .tick i => tick st i
  | .togglePlay => { st with isPlaying := !st.isPlaying }
  | .connect => { st with connectionStatus := .connected }
  | .configUpdate c => updateConfig st c
  | .locationResolved loc =>
      { st with
        locationData := some loc
        config :=
          if loc.is_auto_detected then { st.config with location := loc.formatted }
          else { st.config with location := "Location not detected — enter manually" } }
  | .locationRefreshed loc =>
      { st with
        locationData := some loc
        config :=
          if loc.is_auto_detected then { st.config with location := loc.formatted }
          else st.config }

def run (st : HookState) : List Event → HookState
  | [] => st
  | e :: es => run (step st e) es

/-- Small-step relation underlying run; used to state determinism of the
processing loop. -/
inductive Steps : HookState → List Event → HookState → Prop
  | nil (st : HookState) : Steps st [] st
  | cons {st st' : HookState} {e : Event} {es : List Event} :
      Steps (step st e) es st' → Steps st (e :: es) st'

/-!
CSV export, from exportCSV in part_003 lines 167-187.  The locale-dependent
toLocaleString rendering of the timestamp is an input function.
-/

def csvHeaders : List String := ["Time", "Vehicle Type", "Speed (km/h)", "Speed Limit", "Status"]

/-- Decimal rendering of a JS integer that may be negative. -/
def intStr (z : ℤ) : String := if z < 0 then "-" ++ natStr z.natAbs else natStr z.natAbs

/-- One CSV row, part_003 lines 169-175. -/
def csvRow (fmtTime : ℕ → String) (log : SpeedLog) : List String :=
  [fmtTime log.timestamp, log.vehicleType.label, natStr log.speed, intStr log.speedLimit,
   if log.isOverspeed then "Overspeed" else "Normal"]

/-- The csvContent string of part_003 line 177. -/
def exportCSV (fmtTime : ℕ → String) (logs : List SpeedLog) : String :=
  String.intercalate "\n"
    (String.intercalate "," csvHeaders ::
      logs.map (fun log => String.intercalate "," (csvRow fmtTime log)))

/-- Record layout that follows the words of the spec (§6 log sink): fields
timestamp, vehicle type, speed, speed limit, overspeed flag, and the
optional snapshot reference when present.  Stated only to compare with the
records the code actually writes. -/
def specLogRecord (fmtTime : ℕ → String) (log : SpeedLog) : List String :=
  [fmtTime log.timestamp, log.vehicleType.label, natStr log.speed, intStr log.speedLimit,
   if log.isOverspeed then "Overspeed" else "Normal"] ++
    (match log.snapshotUrl with
     | some u => [u]
     | none => [])

/-!
Identity of generated vehicles: the id embeds the creation timestamp, and
since the decimal rendering contains no underscore, the timestamp can be
recovered from the id.
-/

theorem vehicleId_data (n : ℕ) (s : String) :
    (vehicleId n s).data = 'v' :: '_' :: (natChars n ++ '_' :: s.data) := by
  simp [vehicleId, natStr, String.data_append]

theorem vehicleId_inj_now {n₁ n₂ : ℕ} {s₁ s₂ : String}
    (h : vehicleId n₁ s₁ = vehicleId n₂ s₂) : n₁ = n₂ := by
  have hd := congrArg String.data h
  rw [vehicleId_data, vehicleId_data] at hd
  simp only [List.cons.injEq, true_and] at hd
  exact natChars_inj (append_cons_inj _ _ _ _
    (underscore_not_mem_natChars n₁) (underscore_not_mem_natChars n₂) hd)

/-- A vehicle whose id is the id template applied to its own timestamp. -/
def VehicleTagged (v : DetectedVehicle) : Prop :=
  ∃ s, v.id = vehicleId v.timestamp s

/-- A log entry whose vehicleId is the id template applied to its own
timestamp. -/
def LogTagged (L : SpeedLog) : Prop :=
  ∃ s, L.vehicleId = vehicleId L.timestamp s

/-- The tick timestamps in an event list strictly increase, starting above
the given bound.  This models Date.now: consecutive interval firings are
1500 ms apart, so the clock strictly increases between them. -/
def EventsMono : ℕ → List Event → Prop
  | _, [] => True
  | t, .tick i :: es => t < i.draws.now ∧ EventsMono i.draws.now es
  | t, .togglePlay :: es => EventsMono t es
  | t, .connect :: es => EventsMono t es
  | t, .configUpdate _ :: es => EventsMono t es
  | t, .locationResolved _ :: es => EventsMono t es
  | t, .locationRefreshed _ :: es => EventsMono t es

/-- Invariant carried along a run: every retained vehicle and log entry is
tagged with its creation time, created no later than the bound, has
pairwise distinct creation times, and carries a snapshot reference exactly
when flagged overspeed. -/
structure StateInv (t : ℕ) (st : HookState) : Prop where
  vehTag : ∀ v ∈ st.vehicles, VehicleTagged v
  vehLe : ∀ v ∈ st.vehicles, v.timestamp ≤ t
  vehDistinct : st.vehicles.Pairwise (fun a b => a.timestamp ≠ b.timestamp)
  logTag : ∀ L ∈ st.logs, LogTagged L
  logLe : ∀ L ∈ st.logs, L.timestamp ≤ t
  logSnap : ∀ L ∈ st.logs, L.snapshotUrl.isSome = L.isOverspeed
  logDistinct : st.logs.Pairwise (fun a b => a.timestamp ≠ b.timestamp)

theorem StateInv.mono {t t' : ℕ} {st : HookState} (h : t ≤ t') (hs : StateInv t st) :
    StateInv t' st :=
  { hs with
    vehLe := fun v hv => le_trans (hs.vehLe v hv) h
    logLe := fun L hL => le_trans (hs.logLe L hL) h }

theorem initialState_inv : StateInv 0 initialState := by
  constructor <;> simp [initialState]

theorem tick_inv {t : ℕ} {st : HookState} {i : TickInput}
    (hs : StateInv t st) (ht : t < i.draws.now) : StateInv i.draws.now (tick st i) := by
  rw [tick]
  split
  · split
    · set v := generateRandomVehicle st.config.speedLimit i.draws with hv
      have hvmem : ∀ w ∈ takeLast 5 (st.vehicles.filter
          (fun w => i.draws.now - w.timestamp < 3000) ++ [v]),
          w ∈ st.vehicles ∨ w = v := by
        intro w hw
        have hw' := (List.drop_sublist _ _).mem hw
        rcases List.mem_append.1 hw' with h1 | h1
        · exact Or.inl (List.mem_of_mem_filter h1)
        · exact Or.inr (List.mem_singleton.1 h1)
      have hlmem : ∀ L ∈ (mkLog v st.config.speedLimit i.draws.now :: st.logs).take 50,
          L = mkLog v st.config.speedLimit i.draws.now ∨ L ∈ st.logs := by
        intro L hL
        rcases List.mem_cons.1 (List.mem_of_mem_take hL) with h1 | h1
        · exact Or.inl h1
        · exact Or.inr h1
      constructor
      · intro w hw
        rcases hvmem w hw with h1 | h1
        · exact hs.vehTag w h1
        · exact ⟨i.draws.idSuffix, by rw [h1]; rfl⟩
      · intro w hw
        rcases hvmem w hw with h1 | h1
        · exact le_trans (hs.vehLe w h1) (le_of_lt ht)
        · rw [h1]; exact le_rfl
      · refine List.Pairwise.sublist (List.drop_sublist _ _) ?_
        rw [List.pairwise_append]
        refine ⟨(hs.vehDistinct.filter _), List.pairwise_singleton _ _, ?_⟩
        intro a ha b hb
        rw [List.mem_singleton.1 hb]
        have := hs.vehLe a (List.mem_of_mem_filter ha)
        show a.timestamp ≠ i.draws.now
        omega
      · intro L hL
        rcases hlmem L hL with h1 | h1
        · exact ⟨i.draws.idSuffix, by rw [h1]; rfl⟩
        · exact hs.logTag L h1
      · intro L hL
        rcases hlmem L hL with h1 | h1
        · rw [h1]; exact le_rfl
        · exact le_trans (hs.logLe L h1) (le_of_lt ht)
      · intro L hL
        rcases hlmem L hL with h1 | h1
        · rw [h1, mkLog]
          cases hov : (generateRandomVehicle st.config.speedLimit i.draws).isOverspeed <;>
            simp [hov]
        · exact hs.logSnap L h1
      · refine List.Pairwise.sublist (List.take_sublist _ _) ?_
        refine List.pairwise_cons.2 ⟨?_, hs.logDistinct⟩
        intro L hL
        have := hs.logLe L hL
        show (mkLog v st.config.speedLimit i.draws.now).timestamp ≠ L.timestamp
        show (generateRandomVehicle st.config.speedLimit i.draws).timestamp ≠ L.timestamp
        show i.draws.now ≠ L.timestamp
        omega
    · exact hs.mono (le_of_lt ht)
  · exact hs.mono (le_of_lt ht)

theorem step_inv_other {t : ℕ} {st : HookState} {e : Event}
    (hs : StateInv t st) (he : ∀ i, e ≠ Event.tick i) : StateInv t (step st e) := by
  cases e with
  | tick i => exact absurd rfl (he i)
  | togglePlay => exact { hs with }
  | connect => exact { hs with }
  | configUpdate c => exact { hs with }
  | locationResolved loc => exact { hs with }
  | locationRefreshed loc => exact { hs with }

theorem run_inv : ∀ (evs : List Event) (t : ℕ) (st : HookState),
    StateInv t st → EventsMono t evs → ∃ t₂, t ≤ t₂ ∧ StateInv t₂ (run st evs) := by
  intro evs
  induction evs with
  | nil => intro t st hs _; exact ⟨t, le_rfl, hs⟩
  | cons e es ih =>
    intro t st hs hm
    cases e with
    | tick i =>
      obtain ⟨ht, hm'⟩ := hm
      obtain ⟨t₂, ht₂, hinv⟩ := ih i.draws.now (tick st i) (tick_inv hs ht) hm'
      exact ⟨t₂, le_trans (le_of_lt ht) ht₂, hinv⟩
    | togglePlay => exact ih t _ (step_inv_other hs (by intro i h; cases h)) hm
    | connect => exact ih t _ (step_inv_other hs (by intro i h; cases h)) hm
    | configUpdate c => exact ih t _ (step_inv_other hs (by intro i h; cases h)) hm
    | locationResolved loc => exact ih t _ (step_inv_other hs (by intro i h; cases h)) hm
    | locationRefreshed loc => exact ih t _ (step_inv_other hs (by intro i h; cases h)) hm

theorem logsUnique {t : ℕ} {st : HookState} (hs : StateInv t st) :
    ∀ L ∈ st.logs, ∀ L' ∈ st.logs, L'.vehicleId = L.vehicleId → L' = L := by
  intro L hL L' hL' hid
  by_cases h : L' = L
  · exact h
  · exfalso
    have hsym : Symmetric (fun (a b : SpeedLog) => a.timestamp ≠ b.timestamp) :=
      fun _ _ hab => Ne.symm hab
    have hts := List.Pairwise.forall hsym hs.logDistinct hL' hL h
    obtain ⟨s, hsL⟩ := hs.logTag L hL
    obtain ⟨s', hsL'⟩ := hs.logTag L' hL'
    exact hts (vehicleId_inj_now (hsL'.symm.trans (hid.trans hsL)))

theorem vehiclesUnique {t : ℕ} {st : HookState} (hs : StateInv t st) :
    ∀ v ∈ st.vehicles, ∀ w ∈ st.vehicles, v.id = w.id → v = w := by
  intro v hv w hw hid
  by_cases h : v = w
  · exact h
  · exfalso
    have hsym : Symmetric (fun (a b : DetectedVehicle) => a.timestamp ≠ b.timestamp) :=
      fun _ _ hab => Ne.symm hab
    have hts := List.Pairwise.forall hsym hs.vehDistinct hv hw h
    obtain ⟨s, hsv⟩ := hs.vehTag v hv
    obtain ⟨s', hsw⟩ := hs.vehTag w hw
    exact hts (vehicleId_inj_now (hsv.symm.trans (hid.trans hsw)))

/-!
Concrete fixtures used by the witness theorems below.
-/

/-- A concrete set of draws: every numeric draw is 0, the clock reads 5 ms. -/
def d0 : Draws :=
  { speedRand := 0, typeRand := 0, idSuffix := "abcdefghi", confRand := 0,
    bxRand := 0, byRand := 0, bwRand := 0, bhRand := 0, now := 5 }

/-- A concrete interval firing whose gate draw passes the 0.3 threshold. -/
def i0 : TickInput := { gate := 1 / 2, draws := d0 }

/-- The state right after the simulated connection succeeds. -/
def st0 : HookState := step initialState Event.connect

/-- A concrete event list: connect, then one interval firing at time 5. -/
def evs0 : List Event := [Event.connect, Event.tick i0]

/-- A concrete detected vehicle. -/
def v0 : DetectedVehicle :=
  { id := "v_5_abc", type := .car, speed := 95, isOverspeed := true,
    confidence := 9 / 10, bbox := ⟨20, 30, 15, 20⟩, timestamp := 5 }

/-- A state holding exactly one vehicle. -/
def stV : HookState := { initialState with vehicles := [v0] }

/-- A concrete saved config with a different speed limit. -/
def cNew : CameraConfig :=
  { id := "cam_001", name := "Camera 1", location := "Berlin", speedLimit := 100,
    isActive := true, resolution := "1920x1080", fps := 30 }

/-- A malformed config: non-positive speed limit and frame rate. -/
def badConfig : CameraConfig :=
  { id := "cam_001", name := "Camera 1", location := "Berlin", speedLimit := 0,
    isActive := true, resolution := "1920x1080", fps := -1 }

/-- Draws differing only in the clock value, read at 999 ms and 1000 ms. -/
def dA : Draws :=
  { speedRand := 0, typeRand := 0, idSuffix := "abcdefghi", confRand := 0,
    bxRand := 0, byRand := 0, bwRand := 0, bhRand := 0, now := 999 }

def dB : Draws :=
  { speedRand := 0, typeRand := 0, idSuffix := "abcdefghi", confRand := 0,
    bxRand := 0, byRand := 0, bwRand := 0, bhRand := 0, now := 1000 }

/-- An overspeed log entry carrying a snapshot reference. -/
def log0 : SpeedLog :=
  { id := "log_5", vehicleId := "v_5_abc", vehicleType := .car, speed := 100,
    speedLimit := 80, isOverspeed := true, timestamp := 5,
    snapshotUrl := some "/snapshots/v_5_abc.jpg" }

/-- A concrete timestamp renderer for CSV rows. -/
def fmt0 : ℕ → String := fun n => natStr n

theorem evs0_mono : EventsMono 0 evs0 := by
  simp [EventsMono, evs0, i0, d0]

theorem run_evs0_logs : (run initialState evs0).logs = [mkLog (generateRandomVehicle 80 d0) 80 5] := by
  show (tick (step initialState Event.connect) i0).logs = _
  rw [tick, if_pos ⟨rfl, rfl⟩, if_pos (by norm_num [i0] : i0.gate > 3 / 10)]
  rfl

theorem run_evs0_vehicles : (run initialState evs0).vehicles = [generateRandomVehicle 80 d0] := by
  show (tick (step initialState Event.connect) i0).vehicles = _
  rw [tick, if_pos ⟨rfl, rfl⟩, if_pos (by norm_num [i0] : i0.gate > 3 / 10)]
  rfl

/-!
Claim theorems.
-/

/-- C1: the overspeed decision is the strict comparison of speed against the
configured limit.  For every generated vehicle and every limit, isOverspeed
is true exactly when speed > speedLimit, and likewise for the SpeedGauge
comparison; a speed exactly equal to the limit is classified as not
overspeed. -/
theorem overspeedStrict (limit : ℤ) (d : Draws) (s l : ℤ) :
    ((generateRandomVehicle limit d).isOverspeed = true ↔
      limit < ((generateRandomVehicle limit d).speed : ℤ)) ∧
    (SpeedGauge.isOverspeed s l = true ↔ l < s) ∧
    SpeedGauge.isOverspeed l l = false ∧
    (((generateRandomVehicle limit d).speed : ℤ) = limit →
      (generateRandomVehicle limit d).isOverspeed = false) := by
  refine ⟨?_, ?_, ?_, ?_⟩
  · exact decide_eq_true_iff
  · exact decide_eq_true_iff
  · simp [SpeedGauge.isOverspeed]
  · intro heq
    show decide (limit < ((generateRandomVehicle limit d).speed : ℤ)) = false
    rw [heq]
    simp

theorem overspeedStrict_witness :
    ((generateRandomVehicle 40 d0).speed : ℤ) = 40 ∧
    (generateRandomVehicle 40 d0).isOverspeed = false := by
  have heq : ((generateRandomVehicle 40 d0).speed : ℤ) = 40 := by
    show ((((⌊d0.speedRand * 80⌋).toNat + 40 : ℕ) : ℤ) = 40)
    norm_num [d0]
  exact ⟨heq, (overspeedStrict 40 d0 0 0).2.2.2 heq⟩

/-- C2: saving a new configuration leaves every already-emitted log entry
unchanged (the logs list is untouched, so each entry keeps the speed limit
and overspeed flag it was created with), and an interval firing after the
update creates its entry against the new speed limit. -/
theorem configIsolation (st : HookState) (c : CameraConfig) (i : TickInput)
    (hp : (updateConfig st c).isPlaying = true)
    (hc : (updateConfig st c).connectionStatus = ConnectionStatus.connected)
    (hg : i.gate > 3 / 10) :
    (updateConfig st c).logs = st.logs ∧
    (tick (updateConfig st c) i).logs.head? =
      some (mkLog (generateRandomVehicle c.speedLimit i.draws) c.speedLimit i.draws.now) ∧
    (mkLog (generateRandomVehicle c.speedLimit i.draws) c.speedLimit i.draws.now).speedLimit
      = c.speedLimit ∧
    (mkLog (generateRandomVehicle c.speedLimit i.draws) c.speedLimit i.draws.now).isOverspeed
      = decide (c.speedLimit < ((generateRandomVehicle c.speedLimit i.draws).speed : ℤ)) := by
  refine ⟨rfl, ?_, rfl, rfl⟩
  rw [tick, if_pos ⟨hp, hc⟩, if_pos hg]
  rfl

theorem configIsolation_witness :
    (updateConfig st0 cNew).isPlaying = true ∧ i0.gate > 3 / 10 ∧
    (updateConfig st0 cNew).logs = st0.logs ∧
    (tick (updateConfig st0 cNew) i0).logs.head? =
      some (mkLog (generateRandomVehicle cNew.speedLimit i0.draws) cNew.speedLimit i0.draws.now) := by
  have h := configIsolation st0 cNew i0 rfl rfl (by norm_num [i0])
  exact ⟨rfl, by norm_num [i0], h.1, h.2.1⟩

/-- C4 counterexample: updateConfig performs no validation.  A config with a
non-positive speed limit and a non-positive frame rate is stored verbatim;
the previous valid config is not kept. -/
theorem configValidation_cex :
    badConfig.speedLimit ≤ 0 ∧ badConfig.fps ≤ 0 ∧
    (updateConfig initialState badConfig).config = badConfig ∧
    (updateConfig initialState badConfig).config ≠ initialState.config := by
  refine ⟨by decide, by decide, rfl, by decide⟩

/-- C4 amended: the settings boundary accepts every configuration, malformed
or not; the new config replaces the previous one verbatim, and the update
touches nothing else except the location-override flag. -/
theorem configUpdateUnvalidated (st : HookState) (c : CameraConfig) :
    (updateConfig st c).config = c ∧
    (updateConfig st c).logs = st.logs ∧
    (updateConfig st c).vehicles = st.vehicles ∧
    (updateConfig st c).stats = st.stats :=
  ⟨rfl, rfl, rfl, rfl⟩

/-- C5 counterexample: the exported CSV row of an entry that carries a
snapshot reference has only the five fields time, type, speed, limit,
status; the snapshot reference required by the claimed record layout is
absent, so the row differs from the spec-shaped record. -/
theorem csvSnapshot_cex :
    log0.snapshotUrl = some "/snapshots/v_5_abc.jpg" ∧
    csvRow fmt0 log0 ≠ specLogRecord fmt0 log0 ∧
    "/snapshots/v_5_abc.jpg" ∉ csvRow fmt0 log0 ∧
    exportCSV fmt0 [log0] =
      "Time,Vehicle Type,Speed (km/h),Speed Limit,Status\n5,car,100,80,Overspeed" := by
  refine ⟨rfl, by decide, by decide, by decide⟩

/-- C5 amended: the exported CSV is one delimited record per log entry, each
with exactly the five fields timestamp, vehicle type, speed, speed limit
and overspeed status; no snapshot field is written. -/
theorem csvRecordFields (f : ℕ → String) (logs : List SpeedLog) :
    exportCSV f logs = String.intercalate "\n"
      (String.intercalate "," csvHeaders ::
        logs.map (fun l => String.intercalate ","
          [f l.timestamp, l.vehicleType.label, natStr l.speed, intStr l.speedLimit,
           if l.isOverspeed then "Overspeed" else "Normal"])) ∧
    (logs.map (fun l => String.intercalate "," (csvRow f l))).length = logs.length := by
  exact ⟨rfl, by simp⟩

/-- C3: in any run whose interval timestamps strictly increase, a log entry
carries a snapshot reference exactly when it is flagged overspeed (so only
overspeed entries carry one), and every vehicle occurs in at most one log
entry — its creation, which is the first and only frame on which it can
become overspeed — so the snapshot is attached exactly at the transition
into overspeed. -/
theorem snapshotOnFirstOverspeed (evs : List Event) (hm : EventsMono 0 evs) :
    ∀ L ∈ (run initialState evs).logs,
      L.snapshotUrl.isSome = L.isOverspeed ∧
      (L.snapshotUrl ≠ none → L.isOverspeed = true) ∧
      ∀ L' ∈ (run initialState evs).logs, L'.vehicleId = L.vehicleId → L' = L := by
  obtain ⟨t₂, _, hinv⟩ := run_inv evs 0 initialState initialState_inv hm
  intro L hL
  refine ⟨hinv.logSnap L hL, ?_, fun L' hL' => logsUnique hinv L hL L' hL'⟩
  intro hne
  rw [← hinv.logSnap L hL, Option.isSome_iff_ne_none]
  exact hne

theorem snapshotOnFirstOverspeed_witness :
    EventsMono 0 evs0 ∧
    (mkLog (generateRandomVehicle 80 d0) 80 5).snapshotUrl.isSome =
      (mkLog (generateRandomVehicle 80 d0) 80 5).isOverspeed := by
  refine ⟨evs0_mono, ?_⟩
  have hmem : mkLog (generateRandomVehicle 80 d0) 80 5 ∈ (run initialState evs0).logs := by
    rw [run_evs0_logs]; exact List.mem_singleton_self _
  exact (snapshotOnFirstOverspeed evs0 evs0_mono _ hmem).1

/-- C6 amended: vehicle ids generated at distinct clock values are distinct,
and in any run whose interval timestamps strictly increase all retained
vehicles have pairwise distinct ids (no id is reused); the ids embed the
strictly increasing creation timestamp but, as the counterexample shows,
they are not themselves lexicographically increasing. -/
theorem idUniqueInRun (l₁ l₂ : ℤ) (a b : Draws) (hab : a.now ≠ b.now)
    (evs : List Event) (hm : EventsMono 0 evs) :
    (generateRandomVehicle l₁ a).id ≠ (generateRandomVehicle l₂ b).id ∧
    ∀ v ∈ (run initialState evs).vehicles, ∀ w ∈ (run initialState evs).vehicles,
      v.id = w.id → v = w := by
  obtain ⟨t₂, _, hinv⟩ := run_inv evs 0 initialState initialState_inv hm
  refine ⟨?_, vehiclesUnique hinv⟩
  intro h
  exact hab (vehicleId_inj_now h)

theorem idUniqueInRun_witness :
    dA.now ≠ dB.now ∧ EventsMono 0 evs0 ∧
    (generateRandomVehicle 80 dA).id ≠ (generateRandomVehicle 80 dB).id :=
  ⟨by decide, evs0_mono, (idUniqueInRun 80 80 dA dB (by decide) evs0 evs0_mono).1⟩

/-- C6 counterexample: two vehicles created at strictly increasing clock
values 999 and 1000 get distinct ids, but the later id is lexicographically
smaller than the earlier one, so ids are not monotonically ordered as the
claim states. -/
theorem idsNotMonotone_cex :
    dA.now < dB.now ∧
    (generateRandomVehicle 80 dA).id ≠ (generateRandomVehicle 80 dB).id ∧
    ¬ ((generateRandomVehicle 80 dA).id < (generateRandomVehicle 80 dB).id) ∧
    (generateRandomVehicle 80 dB).id < (generateRandomVehicle 80 dA).id := by
  refine ⟨by decide, by decide, ?_, ?_⟩
  · rw [String.lt_iff_toList_lt]
    decide
  · rw [String.lt_iff_toList_lt]
    decide

/-- C7: processing is deterministic.  For a fixed starting state and a fixed
event sequence (which carries all detection inputs), any two runs of the
step relation end in the same state: identical logs, identical id
assignments, identical stats. -/
theorem associationDeterminism {st s₁ s₂ : HookState} {evs : List Event}
    (h₁ : Steps st evs s₁) (h₂ : Steps st evs s₂) :
    s₁ = s₂ ∧ s₁.logs = s₂.logs ∧
    s₁.vehicles.map (fun v => v.id) = s₂.vehicles.map (fun v => v.id) ∧
    s₁.stats = s₂.stats := by
  induction h₁ with
  | nil st =>
    cases h₂
    exact ⟨rfl, rfl, rfl, rfl⟩
  | cons h ih =>
    cases h₂ with
    | cons h' => exact ih h'

theorem associationDeterminism_witness :
    st0 = st0 ∧ st0.logs = st0.logs ∧
    st0.vehicles.map (fun v => v.id) = st0.vehicles.map (fun v => v.id) ∧
    st0.stats = st0.stats := by
  have h : Steps initialState [Event.connect] st0 := Steps.cons (Steps.nil st0)
  exact associationDeterminism h h

/-- C8: getCurrentSpeed returns 0 on an empty vehicle list, and otherwise the
speed of the last (most recently appended) vehicle. -/
theorem getCurrentSpeedSpec (st : HookState) :
    (st.vehicles = [] → getCurrentSpeed st = 0) ∧
    ∀ (pre : List DetectedVehicle) (v : DetectedVehicle),
      st.vehicles = pre ++ [v] → getCurrentSpeed st = v.speed := by
  obtain ⟨cs, ip, vehs, lgs, ld, sts, cfg⟩ := st
  constructor
  · intro h
    simp only at h
    rw [getCurrentSpeed, dif_pos h]
  · intro pre v hpre
    simp only at hpre
    subst hpre
    rw [getCurrentSpeed, dif_neg (by simp)]
    exact congrArg DetectedVehicle.speed (List.getLast_append _)

theorem getCurrentSpeedSpec_witness :
    initialState.vehicles = [] ∧ getCurrentSpeed initialState = 0 ∧
    stV.vehicles = [] ++ [v0] ∧ getCurrentSpeed stV = v0.speed :=
  ⟨rfl, (getCurrentSpeedSpec initialState).1 rfl, rfl, (getCurrentSpeedSpec stV).2 [] v0 rfl⟩

/-- C9: retention is bounded after every update step — no event can push the
vehicle list beyond 5 entries or the log list beyond 50, the initial lists
are within bounds — and an interval firing that detects a vehicle prepends
the new log entry (capping at 50), so the log stays ordered newest-first. -/
theorem retentionBounds (st : HookState) (i : TickInput)
    (hv : st.vehicles.length ≤ 5) (hl : st.logs.length ≤ 50)
    (hp : st.isPlaying = true) (hc : st.connectionStatus = ConnectionStatus.connected)
    (hg : i.gate > 3 / 10) :
    (∀ e : Event, (step st e).vehicles.length ≤ 5 ∧ (step st e).logs.length ≤ 50) ∧
    initialState.vehicles.length ≤ 5 ∧ initialState.logs.length ≤ 50 ∧
    (tick st i).logs = (mkLog (generateRandomVehicle st.config.speedLimit i.draws)
      st.config.speedLimit i.draws.now :: st.logs).take 50 := by
  refine ⟨?_, by simp [initialState], by simp [initialState], ?_⟩
  · intro e
    cases e with
    | tick j =>
      show (tick st j).vehicles.length ≤ 5 ∧ (tick st j).logs.length ≤ 50
      rw [tick]
      split
      · split
        · constructor
          · simp only [takeLast, List.length_drop]
            omega
          · simp only [List.length_take]
            omega
        · exact ⟨hv, hl⟩
      · exact ⟨hv, hl⟩
    | togglePlay => exact ⟨hv, hl⟩
    | connect => exact ⟨hv, hl⟩
    | configUpdate c => exact ⟨hv, hl⟩
    | locationResolved loc => exact ⟨hv, hl⟩
    | locationRefreshed loc => exact ⟨hv, hl⟩
  · rw [tick, if_pos ⟨hp, hc⟩, if_pos hg]

theorem retentionBounds_witness :
    st0.vehicles.length ≤ 5 ∧ st0.logs.length ≤ 50 ∧
    st0.isPlaying = true ∧ st0.connectionStatus = ConnectionStatus.connected ∧
    i0.gate > 3 / 10 ∧
    (∀ e : Event, (step st0 e).vehicles.length ≤ 5 ∧ (step st0 e).logs.length ≤ 50) ∧
    (tick st0 i0).logs = (mkLog (generateRandomVehicle st0.config.speedLimit i0.draws)
      st0.config.speedLimit i0.draws.now :: st0.logs).take 50 := by
  have h := retentionBounds st0 i0 (by decide) (by decide) rfl rfl (by norm_num [i0])
  exact ⟨by decide, by decide, rfl, rfl, by norm_num [i0], h.1, h.2.2.2⟩

/-- C10: the stats fold preserves the claimed invariants — one detection adds
exactly 1 to totalVehicles, adds 1 to overspeedCount exactly when the
vehicle is overspeed (so overspeedCount never exceeds totalVehicles), and
maxSpeedToday becomes the maximum of its previous value and the new speed,
hence never decreases; an interval firing applies exactly this fold. -/
theorem statsInvariant (s : SystemStats) (v : DetectedVehicle) (st : HookState) (i : TickInput)
    (hmono : s.overspeedCount ≤ s.totalVehicles)
    (hp : st.isPlaying = true) (hc : st.connectionStatus = ConnectionStatus.connected)
    (hg : i.gate > 3 / 10) :
    (updateStats s v).totalVehicles = s.totalVehicles + 1 ∧
    (updateStats s v).overspeedCount = s.overspeedCount + (if v.isOverspeed then 1 else 0) ∧
    (updateStats s v).overspeedCount ≤ (updateStats s v).totalVehicles ∧
    (updateStats s v).maxSpeedToday = max s.maxSpeedToday v.speed ∧
    s.maxSpeedToday ≤ (updateStats s v).maxSpeedToday ∧
    (tick st i).stats = updateStats st.stats (generateRandomVehicle st.config.speedLimit i.draws) := by
  refine ⟨rfl, rfl, ?_, rfl, le_max_left _ _, ?_⟩
  · show s.overspeedCount + (if v.isOverspeed then 1 else 0) ≤ s.totalVehicles + 1
    split <;> omega
  · rw [tick, if_pos ⟨hp, hc⟩, if_pos hg]

theorem statsInvariant_witness :
    initialStats.overspeedCount ≤ initialStats.totalVehicles ∧
    (updateStats initialStats v0).totalVehicles = initialStats.totalVehicles + 1 ∧
    (updateStats initialStats v0).overspeedCount ≤ (updateStats initialStats v0).totalVehicles ∧
    (tick st0 i0).stats = updateStats st0.stats (generateRandomVehicle st0.config.speedLimit i0.draws) := by
  have h := statsInvariant initialStats v0 st0 i0 (by decide) rfl rfl (by norm_num [i0])
  exact ⟨by decide, h.1, h.2.2.1, h.2.2.2.2.2⟩
